import Mathlib

/-!
Verification development for the media ingestion pipeline of the
RacingNotesDesktopAppV5 repository (src/storage_service.py, src/models.py).

The Python code is shallowly embedded: pure orchestration logic is translated
to Lean functions; external effects (the PIL image encoder, the moviepy video
backend, the Supabase network upload) are passed in as oracle functions, so the
theorems quantify over every possible behaviour of those collaborators.
Byte strings are abstracted to a type `β` together with a length function
whenever only their identity and length are observable to the embedded code.
-/

namespace RacingNotes

/-! ## Python string / path helpers

Models of the `pathlib` and `str` operations used by storage_service.py:
`Path(p).name`, `Path(p).suffix`, `Path(p).with_suffix(s).name`,
`str.lower`, `str.strip`, `str.endswith`. -/

/-- `pathlib.Path(p).name`: the last `/`-separated component, with trailing
slashes ignored (pathlib normalizes them away). -/
def pyName (p : String) : String :=
  let cs := p.toList.reverse.dropWhile (fun c => c = '/')
  String.mk ((cs.takeWhile (fun c => c ≠ '/')).reverse)

/-- `pathlib.Path(p).suffix`: the final dot-extension of the name, including
the dot; empty when the name has no dot, starts with its only dot, or ends in
a dot (CPython condition `0 < i < len(name) - 1` on the last dot index `i`). -/
def pySuffix (p : String) : String :=
  let name := (pyName p).toList
  let tail := name.reverse.takeWhile (fun c => c ≠ '.')
  if 1 ≤ tail.length ∧ tail.length + 1 < name.length then
    String.mk ('.' :: tail.reverse)
  else ("")

/-- `str.lower` (ASCII, which covers every extension the code compares). -/
def pyLower (s : String) : String :=
  String.mk (s.toList.map Char.toLower)

/-- `str.strip`: drop leading and trailing whitespace. -/
def pyStrip (s : String) : String :=
  String.mk (((s.toList.dropWhile Char.isWhitespace).reverse.dropWhile
    Char.isWhitespace).reverse)

/-- `str.endswith`. -/
def strEndsWith (s suffix : String) : Bool :=
  s.toList.reverse.take suffix.toList.length == suffix.toList.reverse

/-- `pathlib.Path(p).with_suffix(newSuffix).name`: the name with its old
suffix (if any) replaced by `newSuffix`. -/
def pyWithSuffixName (p : String) (newSuffix : String) : String :=
  let name := pyName p
  let old := pySuffix p
  String.mk ((name.toList.take (name.length - old.length)) ++ newSuffix.toList)

/-! ## StorageService configuration (storage_service.py, `__init__`, lines 52-79) -/

def image_max_width : Nat := 1920
def image_max_height : Nat := 1080
def image_quality : Nat := 85
def image_formats : List String := [".jpg", ".jpeg", ".png", ".gif", ".heic", ".heif"]

def video_max_width : Nat := 1280
def video_max_height : Nat := 720
def video_formats : List String := [".mp4", ".mov", ".avi", ".m4v"]

def max_file_size : Nat := 100 * 1024 * 1024
def max_compressed_image_size : Nat := 10 * 1024 * 1024
def max_compressed_video_size : Nat := 50 * 1024 * 1024

def retry_delays : List Nat := [1, 2, 4, 8, 16]

/-! ## upload_media_with_retry (storage_service.py, lines 270-281)

The single network attempt `_upload_media` is abstracted as an oracle
`attemptFn : Nat → Except String α` giving the outcome of the n-th attempt
(0-indexed).  The embedding records, besides the final outcome, the number of
attempts actually made and the sequence of sleeps performed, in order. -/

/-- Outcome of the Python function call: a returned value, a raised
exception, or falling off the end of the `for` loop (Python returns `None`). -/
inductive RetryOutcome (α : Type) where
  | returned (a : α)
  | raised (msg : String)
  | fellThrough
deriving DecidableEq

/-- Trace of one `upload_media_with_retry` call. -/
structure RetryTrace (α : Type) where
  outcome : RetryOutcome α
  attempts : Nat
  sleeps : List Nat
deriving DecidableEq

/-- The body of the `for attempt in range(self.max_retries)` loop; `fuel` is
the number of remaining loop iterations and `attempt` the Python loop index. -/
def uploadRetryGo {α : Type} (attemptFn : Nat → Except String α) (maxRetries : Nat)
    (delays : List Nat) : Nat → Nat → RetryTrace α
  | 0, _ => ⟨.fellThrough, 0, []⟩
  | fuel + 1, attempt =>
    match attemptFn attempt with
    | .ok a => ⟨.returned a, 1, []⟩
    | .error e =>
      if attempt < maxRetries - 1 then
        match delays.get? attempt with
        | some d =>
          let t := uploadRetryGo attemptFn maxRetries delays fuel (attempt + 1)
          ⟨t.outcome, t.attempts + 1, d :: t.sleeps⟩
        | none => ⟨.raised ("IndexError: list index out of range"), 1, []⟩
      else
        ⟨.raised ("Failed to upload after " ++ toString maxRetries ++ " attempts: " ++ e),
          1, []⟩

/-- `upload_media_with_retry`: run the loop for `maxRetries` iterations
starting at attempt 0, with the configured delay table `retry_delays`. -/
def uploadMediaWithRetry {α : Type} (attemptFn : Nat → Except String α)
    (maxRetries : Nat) : RetryTrace α :=
  uploadRetryGo attemptFn maxRetries retry_delays maxRetries 0

section RetryLemmas

variable {α : Type} {f : Nat → Except String α} {M : Nat} {d : List Nat}

lemma uploadRetryGo_ok {fuel n : Nat} {a : α} (h : f n = .ok a) :
    uploadRetryGo f M d (fuel + 1) n = ⟨.returned a, 1, []⟩ := by
  simp [uploadRetryGo, h]

lemma uploadRetryGo_err_last {fuel n : Nat} {e : String} (h : f n = .error e)
    (hn : ¬ n < M - 1) :
    uploadRetryGo f M d (fuel + 1) n =
      ⟨.raised ("Failed to upload after " ++ toString M ++ " attempts: " ++ e), 1, []⟩ := by
  simp [uploadRetryGo, h, hn]

lemma uploadRetryGo_err_sleep {fuel n : Nat} {e : String} {dl : Nat}
    (h : f n = .error e) (hn : n < M - 1) (hd : d.get? n = some dl) :
    uploadRetryGo f M d (fuel + 1) n =
      ⟨(uploadRetryGo f M d fuel (n + 1)).outcome,
        (uploadRetryGo f M d fuel (n + 1)).attempts + 1,
        dl :: (uploadRetryGo f M d fuel (n + 1)).sleeps⟩ := by
  rw [List.get?_eq_getElem?] at hd
  simp [uploadRetryGo, h, hn, hd]

lemma uploadRetryGo_attempts_le : ∀ fuel n, (uploadRetryGo f M d fuel n).attempts ≤ fuel := by
  intro fuel
  induction fuel with
  | zero => intro n; simp [uploadRetryGo]
  | succ fuel ih =>
    intro n
    cases h : f n with
    | ok a => rw [uploadRetryGo_ok h]; dsimp only; omega
    | error e =>
      by_cases hn : n < M - 1
      · cases hd : d.get? n with
        | none =>
          rw [List.get?_eq_getElem?] at hd
          simp [uploadRetryGo, h, hn, hd]
        | some dl =>
          rw [uploadRetryGo_err_sleep h hn hd]
          have := ih (n + 1)
          dsimp only
          omega
      · rw [uploadRetryGo_err_last h hn]; dsimp only; omega

lemma uploadRetryGo_attempts_pos {fuel n : Nat} (hfuel : 1 ≤ fuel) :
    1 ≤ (uploadRetryGo f M d fuel n).attempts := by
  obtain ⟨fuel', rfl⟩ : ∃ k, fuel = k + 1 := ⟨fuel - 1, by omega⟩
  cases h : f n with
  | ok a => rw [uploadRetryGo_ok h]
  | error e =>
    by_cases hn : n < M - 1
    · cases hd : d.get? n with
      | none =>
        rw [List.get?_eq_getElem?] at hd
        simp [uploadRetryGo, h, hn, hd]
      | some dl => rw [uploadRetryGo_err_sleep h hn hd]; dsimp only; omega
    · rw [uploadRetryGo_err_last h hn]

lemma uploadRetryGo_sleeps : ∀ fuel n, M ≤ n + fuel →
    (uploadRetryGo f M d fuel n).sleeps =
      (List.range ((uploadRetryGo f M d fuel n).attempts - 1)).map
        (fun j => d.getD (n + j) 0) := by
  intro fuel
  induction fuel with
  | zero => intro n _; simp [uploadRetryGo]
  | succ fuel ih =>
    intro n hM
    cases h : f n with
    | ok a => rw [uploadRetryGo_ok h]; simp
    | error e =>
      by_cases hn : n < M - 1
      · cases hd : d.get? n with
        | none =>
          have hd' := hd
          rw [List.get?_eq_getElem?] at hd'
          simp [uploadRetryGo, h, hn, hd']
        | some dl =>
          rw [uploadRetryGo_err_sleep h hn hd]
          have hfuel : 1 ≤ fuel := by omega
          have hpos := uploadRetryGo_attempts_pos (f := f) (M := M) (d := d)
            (n := n + 1) hfuel
          obtain ⟨k, hk⟩ : ∃ k, (uploadRetryGo f M d fuel (n + 1)).attempts = k + 1 :=
            ⟨(uploadRetryGo f M d fuel (n + 1)).attempts - 1, by omega⟩
          have ihs := ih (n + 1) (by omega)
          rw [hk] at ihs
          dsimp only
          rw [ihs, hk]
          have hdl : d.getD n 0 = dl := by
            rw [List.getD_eq_getElem?_getD, ← List.get?_eq_getElem?, hd]
            rfl
          simp only [Nat.add_sub_cancel, List.range_succ_eq_map, List.map_cons,
            List.map_map, Nat.add_zero, hdl]
          congr 1
          apply List.map_congr_left
          intro j _
          simp only [Function.comp_apply]
          congr 1
          omega
      · rw [uploadRetryGo_err_last h hn]; simp

lemma uploadRetryGo_first_success :
    ∀ (k : Nat), ∀ {fuel n : Nat} {a : α}, k < fuel →
    (∀ j, j < k → n + j < M - 1) →
    (∀ j, j < k → (d.get? (n + j)).isSome) →
    (∀ j, j < k → ∃ e, f (n + j) = .error e) →
    f (n + k) = .ok a →
    (uploadRetryGo f M d fuel n).outcome = .returned a ∧
      (uploadRetryGo f M d fuel n).attempts = k + 1 := by
  intro k
  induction k with
  | zero =>
    intro fuel n a hk _ _ _ hok
    obtain ⟨fuel', rfl⟩ : ∃ m, fuel = m + 1 := ⟨fuel - 1, by omega⟩
    rw [Nat.add_zero] at hok
    rw [uploadRetryGo_ok hok]
    exact ⟨rfl, rfl⟩
  | succ k ih =>
    intro fuel n a hk hga hgd hfail hok
    obtain ⟨fuel', rfl⟩ : ∃ m, fuel = m + 1 := ⟨fuel - 1, by omega⟩
    obtain ⟨e, he⟩ := hfail 0 (by omega)
    rw [Nat.add_zero] at he
    have hn : n < M - 1 := by have := hga 0 (by omega); omega
    obtain ⟨dl, hdl⟩ : ∃ dl, d.get? n = some dl := by
      have := hgd 0 (by omega)
      rw [Nat.add_zero] at this
      exact Option.isSome_iff_exists.mp this
    rw [uploadRetryGo_err_sleep he hn hdl]
    have step : ∀ j, j < k → (n + 1) + j = n + (j + 1) := by intro j _; omega
    have ih' := @ih fuel' (n + 1) a (by omega)
      (fun j hj => by rw [step j hj]; exact hga (j + 1) (by omega))
      (fun j hj => by rw [step j hj]; exact hgd (j + 1) (by omega))
      (fun j hj => by rw [step j hj]; exact hfail (j + 1) (by omega))
      (by rw [show (n + 1) + k = n + (k + 1) by omega]; exact hok)
    exact ⟨ih'.1, by dsimp only; rw [ih'.2]⟩

lemma uploadRetryGo_exhaust (errs : Nat → String) (hlen : M - 1 ≤ d.length)
    (hall : ∀ j, j < M → f j = .error (errs j)) :
    ∀ fuel n, M ≤ n + fuel → n < M →
    (uploadRetryGo f M d fuel n).outcome =
      .raised ("Failed to upload after " ++ toString M ++ " attempts: " ++ errs (M - 1)) ∧
      (uploadRetryGo f M d fuel n).attempts = M - n := by
  intro fuel
  induction fuel with
  | zero => intro n hM hn; omega
  | succ fuel ih =>
    intro n hM hn
    have he := hall n hn
    by_cases hlt : n < M - 1
    · obtain ⟨dl, hdl⟩ : ∃ dl, d.get? n = some dl := by
        have : n < d.length := by omega
        rw [List.get?_eq_getElem?]
        exact ⟨d[n], by simp [List.getElem?_eq_getElem this]⟩
      rw [uploadRetryGo_err_sleep he hlt hdl]
      obtain ⟨iho, iha⟩ := ih (n + 1) (by omega) (by omega)
      exact ⟨iho, by dsimp only; omega⟩
    · have hlast : n = M - 1 := by omega
      rw [uploadRetryGo_err_last he hlt]
      subst hlast
      exact ⟨rfl, by dsimp only; omega⟩

end RetryLemmas

/-- **C1.** For every attempt oracle (bytes/filename/content-type fixed),
`upload_media_with_retry` with the default `max_retries = 5` makes at most 5
attempts; if the first success is at attempt `k` it returns that attempt's
result immediately with exactly `k + 1` attempts; if all 5 attempts fail it
raises a terminal failure naming the attempt count and the last error (and
never makes a 6th attempt); and the delays slept between consecutive attempts
are exactly the prefix of the fixed sequence `[1, 2, 4, 8, 16]`, indexed by
attempt number. -/
theorem claim_c1_upload_retry_bounded {α : Type} (f : Nat → Except String α) :
    (uploadMediaWithRetry f 5).attempts ≤ 5
    ∧ (∀ k a, k < 5 → (∀ j, j < k → ∃ e, f j = .error e) → f k = .ok a →
        (uploadMediaWithRetry f 5).outcome = .returned a ∧
          (uploadMediaWithRetry f 5).attempts = k + 1)
    ∧ (∀ errs : Nat → String, (∀ j, j < 5 → f j = .error (errs j)) →
        (uploadMediaWithRetry f 5).outcome =
          .raised ("Failed to upload after 5 attempts: " ++ errs 4) ∧
          (uploadMediaWithRetry f 5).attempts = 5)
    ∧ (uploadMediaWithRetry f 5).sleeps =
        retry_delays.take ((uploadMediaWithRetry f 5).attempts - 1) := by
  refine ⟨uploadRetryGo_attempts_le 5 0, ?_, ?_, ?_⟩
  · intro k a hk hfail hok
    exact uploadRetryGo_first_success k hk
      (fun j hj => by omega)
      (fun j hj => by
        have hj4 : j < 4 := by omega
        rw [Nat.zero_add]
        interval_cases j <;> rfl)
      (fun j hj => by simpa using hfail j hj)
      (by simpa using hok)
  · intro errs hall
    have h := uploadRetryGo_exhaust (f := f) (M := 5) (d := retry_delays)
      errs (by simp [retry_delays]) hall 5 0 (by omega) (by omega)
    have hmsg : ("Failed to upload after " ++ toString (5 : Nat) ++ " attempts: "
        ++ errs (5 - 1)) = "Failed to upload after 5 attempts: " ++ errs 4 := by
      have h5 : ("Failed to upload after " ++ toString (5 : Nat) ++ " attempts: ")
          = "Failed to upload after 5 attempts: " := by decide
      rw [h5]
    rw [hmsg] at h
    exact ⟨h.1, h.2⟩
  · have hs := uploadRetryGo_sleeps (f := f) (M := 5) (d := retry_delays) 5 0 (by omega)
    have ha := uploadRetryGo_attempts_le (f := f) (M := 5) (d := retry_delays) 5 0
    have hk : ∀ m, m ≤ 4 →
        (List.range m).map (fun j => retry_delays.getD (0 + j) 0) =
          retry_delays.take m := by
      intro m hm
      interval_cases m <;> decide
    show (uploadRetryGo f 5 retry_delays 5 0).sleeps =
      retry_delays.take ((uploadRetryGo f 5 retry_delays 5 0).attempts - 1)
    rw [hs]
    exact hk _ (by omega)

/-- Concrete attempt oracle for the C1 witness: fails twice, then succeeds. -/
def c1AttemptFn : Nat → Except String Nat :=
  fun n => if n = 2 then .ok 7 else .error ("boom")

/-- Witness for C1 at a concrete oracle: two failures then a success yields
the successful value after exactly 3 attempts. -/
theorem claim_c1_upload_retry_bounded_witness :
    (uploadMediaWithRetry c1AttemptFn 5).outcome = .returned 7 ∧
      (uploadMediaWithRetry c1AttemptFn 5).attempts = 3 :=
  (claim_c1_upload_retry_bounded c1AttemptFn).2.1 2 7 (by omega)
    (fun j hj => ⟨"boom", by interval_cases j <;> rfl⟩) (by rfl)

/-- **C9.** With `max_retries = 0`, the `for attempt in range(0)` loop body
never runs: `upload_media_with_retry` makes no attempt, sleeps never, and the
Python function falls through, returning `None` (neither a result pair nor a
raised error), for every attempt oracle. -/
theorem claim_c9_zero_retries_returns_none {α : Type} (f : Nat → Except String α) :
    uploadMediaWithRetry f 0 = ⟨.fellThrough, 0, []⟩ := rfl

/-! ## compress_image (storage_service.py, lines 81-154)

The PIL image object is modelled by its observable attributes (width, height,
mode, format); the input to the model is the decoded, EXIF-orientation-
normalized image (the result of `Image.open` plus the conditional
`ImageOps.exif_transpose`, both external library calls).  The encoder
(`image.save`) is an oracle `encode : ImgState → String → Option Nat → β`
taking the image, the PIL format name and the optional JPEG quality. -/

/-- Observable state of a PIL image. -/
structure ImgState where
  width : Nat
  height : Nat
  mode : String
  format : Option String
deriving DecidableEq

/-- Lines 102-111: flatten paletted/alpha modes onto a white background,
otherwise convert to RGB.  Both paths build a new PIL image of the same size
(the background is `Image.new('RGB', image.size)`), whose `format` attribute
is `None`; an image already in RGB mode is left untouched. -/
def convertImageMode (img : ImgState) : ImgState :=
  if img.mode = "RGBA" ∨ img.mode = "LA" ∨ img.mode = "P" then
    { width := img.width, height := img.height, mode := "RGB", format := none }
  else if img.mode ≠ "RGB" then
    { img with mode := "RGB", format := none }
  else img

/-- PIL `round_aspect(number, key)`: `max(min(floor, ceil, key=key), 1)`,
where Python `min` keeps the first argument on a key tie. -/
def roundAspect (q : ℚ) (key : ℤ → ℚ) : ℤ :=
  max (if key ⌊q⌋ ≤ key ⌈q⌉ then ⌊q⌋ else ⌈q⌉) 1

/-- Dimension computation of PIL `Image.thumbnail((x, y))`: no-op when the
image already fits, otherwise fit the box preserving aspect ratio using
`round_aspect` (modelled from PIL's `Image.thumbnail` source; float arithmetic
carried out exactly in ℚ). -/
def pilThumbnailDims (w h x y : Nat) : Nat × Nat :=
  if x ≥ w ∧ y ≥ h then (w, h)
  else
    let aspect : ℚ := (w : ℚ) / (h : ℚ)
    if (x : ℚ) / (y : ℚ) ≥ aspect then
      ((roundAspect ((y : ℚ) * aspect) (fun n => |aspect - (n : ℚ) / (y : ℚ)|)).toNat, y)
    else
      (x, (roundAspect ((x : ℚ) / aspect)
        (fun n => if n = 0 then 0 else |aspect - (x : ℚ) / (n : ℚ)|)).toNat)

/-- Lines 113-115: `image.thumbnail((1920, 1080), LANCZOS)` only when the
image exceeds the bounding box; `thumbnail` works in place, so the `format`
attribute survives. -/
def resizeImageStep (img : ImgState) : ImgState :=
  if img.width > image_max_width ∨ img.height > image_max_height then
    { img with
      width := (pilThumbnailDims img.width img.height image_max_width image_max_height).1,
      height := (pilThumbnailDims img.width img.height image_max_width image_max_height).2 }
  else img

/-- The image as it stands at every `image.save` call: decoded input after
mode conversion and conditional resize. -/
def compressImageFinalImg (img0 : ImgState) : ImgState :=
  resizeImageStep (convertImageMode img0)

/-- One `image.save` call: PIL format name and optional JPEG quality. -/
structure EncodeCall where
  format : String
  quality : Option Nat
deriving DecidableEq

/-- Result of `compress_image`: compressed payload, output filename, and the
trace of `image.save` calls performed, in order. -/
structure CompressedImage (β : Type) where
  data : β
  filename : String
  saves : List EncodeCall
deriving DecidableEq

/-- Lines 117-136: the first encoding pass.  HEIC/HEIF sources (by format or
by filename extension) and large PNGs are re-encoded as JPEG at quality 85
with the filename forced to `.jpg`; otherwise the original format is kept
(JPEG gets the quality parameter).  A `format` attribute of `None` (the image
was rebuilt by mode conversion) makes `image.save(BytesIO, format=None)`
raise PIL's unknown-file-extension `ValueError`. -/
def compressImageFirstPass {β : Type} (encode : ImgState → String → Option Nat → β)
    (img0 : ImgState) (imageDataLen : Nat) (filename : String) :
    Except String (β × String × EncodeCall) :=
  let image := compressImageFinalImg img0
  if image.format = some ("HEIC") ∨ image.format = some ("HEIF")
      ∨ strEndsWith (pyLower filename) (".heic") = true
      ∨ strEndsWith (pyLower filename) (".heif") = true then
    .ok (encode image ("JPEG") (some image_quality), pyWithSuffixName filename (".jpg"),
      ⟨"JPEG", some image_quality⟩)
  else if image.format = some ("PNG") ∧ imageDataLen > 2 * 1024 * 1024 then
    .ok (encode image ("JPEG") (some image_quality), pyWithSuffixName filename (".jpg"),
      ⟨"JPEG", some image_quality⟩)
  else
    match image.format with
    | some fmt =>
      if fmt = "JPEG" then
        .ok (encode image ("JPEG") (some image_quality), filename, ⟨"JPEG", some image_quality⟩)
      else
        .ok (encode image fmt none, filename, ⟨fmt, none⟩)
    | none => .error ("ValueError: unknown file extension")

/-- `compress_image` (lines 81-154): first pass, then - if the first result
exceeds `max_compressed_image_size` - one single more aggressive pass at
quality `max(50, image_quality - 20)` as JPEG with the filename forced to
`.jpg`, returned unconditionally. -/
def compressImage {β : Type} (len : β → Nat) (encode : ImgState → String → Option Nat → β)
    (img0 : ImgState) (imageDataLen : Nat) (filename : String) :
    Except String (CompressedImage β) :=
  match compressImageFirstPass encode img0 imageDataLen filename with
  | .error e => .error e
  | .ok (d1, n1, c1) =>
    if len d1 > max_compressed_image_size then
      .ok ⟨encode (compressImageFinalImg img0) ("JPEG") (some (max 50 (image_quality - 20))),
        pyWithSuffixName filename (".jpg"),
        [c1, ⟨"JPEG", some (max 50 (image_quality - 20))⟩]⟩
    else
      .ok ⟨d1, n1, [c1]⟩

/-- Encoder oracle for the C2 instances: the quality-85 pass yields a payload
one byte over the 10 MiB ceiling, any other pass yields its quality value as
the payload token (payload tokens are `Nat`s measured by `id`). -/
def c2Encode : ImgState → String → Option Nat → Nat :=
  fun _ _ q => if q = some image_quality then max_compressed_image_size + 1 else q.getD 0

/-- A plain small RGB JPEG input for the C2 instances. -/
def c2Img : ImgState := ⟨100, 100, "RGB", some ("JPEG")⟩

/-- **C2 (counterexample).** The claim says the second encoding pass uses
quality 50.  On a JPEG whose quality-85 pass exceeds 10 MiB, the code's
second pass is the quality-65 encode (`max(50, 85 - 20)`), not the
quality-50 encode the claim prescribes: the returned payload is the token 65,
while a quality-50 encode would have produced the token 50. -/
theorem claim_c2_quality50_counterexample :
    compressImage id c2Encode c2Img 0 ("a.jpg") =
      .ok ⟨65, "a.jpg", [⟨"JPEG", some 85⟩, ⟨"JPEG", some 65⟩]⟩
    ∧ c2Encode (compressImageFinalImg c2Img) ("JPEG") (some 50) = 50
    ∧ (65 : Nat) ≠ 50 := by
  refine ⟨by rfl, by rfl, by decide⟩

/-- **C2 (amended).** In `compress_image`, if the first encoded result
exceeds 10 MiB (10,485,760 bytes), exactly one more encoding pass is
performed: the image is re-encoded as JPEG at quality
`max(50, image_quality - 20) = 65` (not 50), the output filename is forced to
the `.jpg` extension, and that second result is returned even if it still
exceeds 10 MiB (no further passes, no loop). -/
theorem claim_c2_second_pass_once {β : Type} (len : β → Nat)
    (encode : ImgState → String → Option Nat → β) (img0 : ImgState)
    (imageDataLen : Nat) (filename : String) (d1 : β) (n1 : String) (c1 : EncodeCall)
    (hfp : compressImageFirstPass encode img0 imageDataLen filename = .ok (d1, n1, c1))
    (hbig : len d1 > max_compressed_image_size) :
    compressImage len encode img0 imageDataLen filename =
      .ok ⟨encode (compressImageFinalImg img0) ("JPEG") (some 65),
        pyWithSuffixName filename (".jpg"), [c1, ⟨"JPEG", some 65⟩]⟩
    ∧ max 50 (image_quality - 20) = 65 := by
  constructor
  · unfold compressImage
    rw [hfp]
    dsimp only
    rw [if_pos hbig]
    rfl
  · decide

/-- Witness for the amended C2 at a concrete oracle: the quality-85 pass is
over the ceiling, so the returned payload is the single quality-65 re-encode
with the `.jpg`-forced name, and nothing further. -/
theorem claim_c2_second_pass_once_witness :
    compressImage id c2Encode c2Img 0 ("a.jpg") =
      .ok ⟨c2Encode (compressImageFinalImg c2Img) ("JPEG") (some 65),
        pyWithSuffixName ("a.jpg") (".jpg"), [⟨"JPEG", some 85⟩, ⟨"JPEG", some 65⟩]⟩
    ∧ max 50 (image_quality - 20) = 65 :=
  claim_c2_second_pass_once id c2Encode c2Img 0 ("a.jpg")
    (max_compressed_image_size + 1) ("a.jpg") ⟨"JPEG", some 85⟩ rfl (by decide)

/-! ## C6: image output dimensions -/

lemma convertImageMode_width (img : ImgState) :
    (convertImageMode img).width = img.width := by
  unfold convertImageMode
  split
  · rfl
  · split <;> rfl

lemma convertImageMode_height (img : ImgState) :
    (convertImageMode img).height = img.height := by
  unfold convertImageMode
  split
  · rfl
  · split <;> rfl

lemma roundAspect_toNat_le {q : ℚ} {key : ℤ → ℚ} {B : Nat} (hB : 1 ≤ B)
    (hq : q ≤ (B : ℚ)) : (roundAspect q key).toNat ≤ B := by
  have hceil : ⌈q⌉ ≤ (B : ℤ) := by
    rw [Int.ceil_le]
    exact_mod_cast hq
  have hfloor : ⌊q⌋ ≤ (B : ℤ) := le_trans (Int.floor_le_ceil q) hceil
  rw [roundAspect, Int.toNat_le]
  apply max_le
  · split
    · exact hfloor
    · exact hceil
  · exact_mod_cast hB

lemma pilThumbnailDims_fits {w h : Nat} (hw : 0 < w) (hh : 0 < h)
    (hbig : 1920 < w ∨ 1080 < h) :
    (pilThumbnailDims w h 1920 1080).1 ≤ 1920 ∧
    (pilThumbnailDims w h 1920 1080).1 ≤ w ∧
    (pilThumbnailDims w h 1920 1080).2 ≤ 1080 ∧
    (pilThumbnailDims w h 1920 1080).2 ≤ h := by
  have hwq : (0 : ℚ) < (w : ℚ) := by exact_mod_cast hw
  have hhq : (0 : ℚ) < (h : ℚ) := by exact_mod_cast hh
  have hx : (((1920 : Nat) : ℚ)) = (1920 : ℚ) := by norm_num
  have hy : (((1080 : Nat) : ℚ)) = (1080 : ℚ) := by norm_num
  unfold pilThumbnailDims
  rw [if_neg (by omega : ¬ (1920 ≥ w ∧ 1080 ≥ h))]
  by_cases hcase : (((1920 : Nat) : ℚ)) / (((1080 : Nat) : ℚ)) ≥ (w : ℚ) / (h : ℚ)
  · rw [if_pos hcase]
    rw [hx, hy] at hcase
    have hwh : (w : ℚ) * 1080 ≤ 1920 * (h : ℚ) := by
      rw [ge_iff_le, div_le_div_iff₀ hhq (by norm_num)] at hcase
      exact hcase
    have h1080 : (1080 : ℚ) < (h : ℚ) := by
      rcases hbig with hb | hb
      · have hb' : (1920 : ℚ) < (w : ℚ) := by exact_mod_cast hb
        nlinarith
      · exact_mod_cast hb
    have hq1 : (((1080 : Nat) : ℚ)) * ((w : ℚ) / (h : ℚ)) ≤ (((1920 : Nat) : ℚ)) := by
      rw [hx, hy, ← mul_div_assoc, div_le_iff₀ hhq]
      nlinarith
    have hq2 : (((1080 : Nat) : ℚ)) * ((w : ℚ) / (h : ℚ)) ≤ ((w : Nat) : ℚ) := by
      rw [hy, ← mul_div_assoc, div_le_iff₀ hhq]
      nlinarith
    refine ⟨roundAspect_toNat_le (by norm_num) hq1,
      roundAspect_toNat_le (by exact_mod_cast hw) hq2, by norm_num, ?_⟩
    have : (1080 : Nat) < h := by exact_mod_cast h1080
    omega
  · rw [if_neg hcase]
    push_neg at hcase
    rw [hx, hy] at hcase
    have hwh : 1920 * (h : ℚ) < (w : ℚ) * 1080 := by
      rw [div_lt_div_iff₀ (by norm_num) hhq] at hcase
      exact hcase
    have h1920 : (1920 : ℚ) < (w : ℚ) := by
      rcases hbig with hb | hb
      · exact_mod_cast hb
      · have hb' : (1080 : ℚ) < (h : ℚ) := by exact_mod_cast hb
        nlinarith
    have hq1 : (((1920 : Nat) : ℚ)) / ((w : ℚ) / (h : ℚ)) ≤ (((1080 : Nat) : ℚ)) := by
      rw [hx, hy, div_div_eq_mul_div, div_le_iff₀ hwq]
      nlinarith
    have hq2 : (((1920 : Nat) : ℚ)) / ((w : ℚ) / (h : ℚ)) ≤ ((h : Nat) : ℚ) := by
      rw [hx, div_div_eq_mul_div, div_le_iff₀ hwq]
      nlinarith
    have hw1920 : (1920 : Nat) ≤ w := by
      have : (1920 : Nat) < w := by exact_mod_cast h1920
      omega
    exact ⟨by norm_num, hw1920, roundAspect_toNat_le (by norm_num) hq1,
      roundAspect_toNat_le (by exact_mod_cast hh) hq2⟩

/-- **C6.** For every decoded, orientation-normalized input image, the image
handed to every encoding pass of `compress_image` has width ≤ 1920 and ≤ the
input width, and height ≤ 1080 and ≤ the input height (no upscaling ever);
and an input already inside the 1920×1080 bounding box passes through with
width and height unchanged. -/
theorem claim_c6_image_dims_bounded (img0 : ImgState)
    (hw : 0 < img0.width) (hh : 0 < img0.height) :
    (compressImageFinalImg img0).width ≤ 1920 ∧
    (compressImageFinalImg img0).width ≤ img0.width ∧
    (compressImageFinalImg img0).height ≤ 1080 ∧
    (compressImageFinalImg img0).height ≤ img0.height ∧
    (img0.width ≤ 1920 → img0.height ≤ 1080 →
      (compressImageFinalImg img0).width = img0.width ∧
      (compressImageFinalImg img0).height = img0.height) := by
  unfold compressImageFinalImg resizeImageStep
  rw [convertImageMode_width, convertImageMode_height]
  by_cases hbig : img0.width > image_max_width ∨ img0.height > image_max_height
  · rw [if_pos hbig]
    have hbig' : 1920 < img0.width ∨ 1080 < img0.height := by
      simpa [image_max_width, image_max_height] using hbig
    have hfits := pilThumbnailDims_fits hw hh hbig'
    refine ⟨?_, ?_, ?_, ?_, ?_⟩
    · exact hfits.1
    · exact hfits.2.1
    · exact hfits.2.2.1
    · exact hfits.2.2.2
    · intro h1 h2
      exfalso
      simp only [image_max_width, image_max_height] at hbig
      omega
  · rw [if_neg hbig]
    rw [convertImageMode_width, convertImageMode_height]
    simp only [image_max_width, image_max_height] at hbig
    refine ⟨by omega, le_refl _, by omega, le_refl _, fun _ _ => ⟨rfl, rfl⟩⟩

/-- A concrete in-box image for the C6 witness. -/
def c6Img : ImgState := ⟨800, 600, "RGB", some ("JPEG")⟩

/-- Witness for C6 at a concrete image: an 800×600 input satisfies all the
dimension bounds and the pass-through property. -/
theorem claim_c6_image_dims_bounded_witness :
    (compressImageFinalImg c6Img).width ≤ 1920 ∧
    (compressImageFinalImg c6Img).width ≤ c6Img.width ∧
    (compressImageFinalImg c6Img).height ≤ 1080 ∧
    (compressImageFinalImg c6Img).height ≤ c6Img.height ∧
    (c6Img.width ≤ 1920 → c6Img.height ≤ 1080 →
      (compressImageFinalImg c6Img).width = c6Img.width ∧
      (compressImageFinalImg c6Img).height = c6Img.height) :=
  claim_c6_image_dims_bounded c6Img (by decide) (by decide)

/-! ## compress_video (storage_service.py, lines 156-268)

When the moviepy backend is unavailable the function returns the input bytes
and filename unchanged (lines 158-161); the whole backend-dependent encoding
path (lines 163-268) is abstracted as an oracle since it runs moviepy/ffmpeg.
The target-dimension arithmetic of both encoding passes (lines 180-197 and
227-235) is pure Python and is embedded exactly, with `float` division
carried out in ℚ and Python `int()` truncation on nonnegative values as
`Int.floor`. -/

/-- Python `int(q)` for the nonnegative quantities used here. -/
def pyIntFloor (q : ℚ) : Nat := ⌊q⌋.toNat

/-- Lines 192-193 / 233-234: round a dimension down to the nearest even
integer (`x if x % 2 == 0 else x - 1`). -/
def evenDown (n : Nat) : Nat := if n % 2 = 0 then n else n - 1

/-- Lines 180-193: first-pass target dimensions.  Start from
`min(width, 1280)` × `min(height, 720)`, correct one side for the aspect
ratio (`aspect_ratio = width / height`), then round both sides down to the
nearest even integer. -/
def videoTargetDims (w h : Nat) : Nat × Nat :=
  if ((min w video_max_width : Nat) : ℚ) / ((min h video_max_height : Nat) : ℚ)
      > (w : ℚ) / (h : ℚ) then
    (evenDown (pyIntFloor (((min h video_max_height : Nat) : ℚ) * ((w : ℚ) / (h : ℚ)))),
      evenDown (min h video_max_height))
  else
    (evenDown (min w video_max_width),
      evenDown (pyIntFloor (((min w video_max_width : Nat) : ℚ) / ((w : ℚ) / (h : ℚ)))))

/-- Lines 230-234: fallback-pass target dimensions, bounded by 854×480,
computed from the aspect ratio, then rounded down to even. -/
def videoFallbackDims (w h : Nat) : Nat × Nat :=
  let aspect : ℚ := (w : ℚ) / (h : ℚ)
  let tw := min 854 (pyIntFloor ((480 : ℚ) * aspect))
  let th := min 480 (pyIntFloor ((854 : ℚ) / aspect))
  (evenDown tw, evenDown th)

/-- `compress_video` (lines 156-268): pass-through when the moviepy backend
is unavailable, otherwise the backend-dependent encoding path (the whole
`try` block), abstracted as an oracle returning either a compressed payload
with its `.mp4`-renamed filename or a raised error. -/
def compressVideo {β : Type} (moviepyAvailable : Bool)
    (backendRun : β → String → Except String (β × String))
    (videoData : β) (filename : String) : Except String (β × String) :=
  if moviepyAvailable = false then .ok (videoData, filename)
  else backendRun videoData filename

lemma evenDown_even (n : Nat) : evenDown n % 2 = 0 := by
  unfold evenDown
  split <;> omega

lemma evenDown_le (n : Nat) : evenDown n ≤ n := by
  unfold evenDown
  split <;> omega

lemma pyIntFloor_le {q : ℚ} {B : Nat} (hq : q ≤ (B : ℚ)) : pyIntFloor q ≤ B := by
  unfold pyIntFloor
  rw [Int.toNat_le]
  simpa using Int.floor_le_floor hq

/-- **C7.** Whenever video transcoding computes resize targets - bounded by
1280×720 on the first pass and by 854×480 on the fallback pass - both target
dimensions are within the bounding box and are rounded down to the nearest
even integer, so every resized output has even width and even height. -/
theorem claim_c7_video_dims_even (w h : Nat) (hw : 0 < w) (hh : 0 < h) :
    ((videoTargetDims w h).1 % 2 = 0 ∧ (videoTargetDims w h).2 % 2 = 0 ∧
      (videoTargetDims w h).1 ≤ video_max_width ∧
      (videoTargetDims w h).2 ≤ video_max_height) ∧
    ((videoFallbackDims w h).1 % 2 = 0 ∧ (videoFallbackDims w h).2 % 2 = 0 ∧
      (videoFallbackDims w h).1 ≤ 854 ∧ (videoFallbackDims w h).2 ≤ 480) := by
  have hth : (0 : ℚ) < ((min h video_max_height : Nat) : ℚ) := by
    have : 0 < min h video_max_height := by
      simp only [video_max_height]
      omega
    exact_mod_cast this
  have haspect : (0 : ℚ) < (w : ℚ) / (h : ℚ) :=
    div_pos (by exact_mod_cast hw) (by exact_mod_cast hh)
  constructor
  · unfold videoTargetDims
    by_cases hbr : ((min w video_max_width : Nat) : ℚ) / ((min h video_max_height : Nat) : ℚ)
        > (w : ℚ) / (h : ℚ)
    · rw [if_pos hbr]
      refine ⟨evenDown_even _, evenDown_even _, ?_, ?_⟩
      · have hq : ((min h video_max_height : Nat) : ℚ) * ((w : ℚ) / (h : ℚ))
            ≤ ((min w video_max_width : Nat) : ℚ) := by
          rw [gt_iff_lt, lt_div_iff₀ hth] at hbr
          rw [mul_comm]
          exact le_of_lt hbr
        exact le_trans (evenDown_le _)
          (le_trans (pyIntFloor_le hq) (min_le_right _ _))
      · exact le_trans (evenDown_le _) (min_le_right _ _)
    · rw [if_neg hbr]
      push_neg at hbr
      refine ⟨evenDown_even _, evenDown_even _,
        le_trans (evenDown_le _) (min_le_right _ _), ?_⟩
      have hq : ((min w video_max_width : Nat) : ℚ) / ((w : ℚ) / (h : ℚ))
          ≤ ((min h video_max_height : Nat) : ℚ) := by
        rw [div_le_iff₀ haspect]
        have h2 := (div_le_iff₀ hth).mp hbr
        exact le_trans h2 (le_of_eq (mul_comm _ _))
      exact le_trans (evenDown_le _)
        (le_trans (pyIntFloor_le hq) (min_le_right _ _))
  · unfold videoFallbackDims
    exact ⟨evenDown_even _, evenDown_even _,
      le_trans (evenDown_le _) (min_le_left _ _),
      le_trans (evenDown_le _) (min_le_left _ _)⟩

/-- Witness for C7 at a concrete 1920×1080 source: both passes produce even,
in-box dimensions. -/
theorem claim_c7_video_dims_even_witness :
    ((videoTargetDims 1920 1080).1 % 2 = 0 ∧ (videoTargetDims 1920 1080).2 % 2 = 0 ∧
      (videoTargetDims 1920 1080).1 ≤ video_max_width ∧
      (videoTargetDims 1920 1080).2 ≤ video_max_height) ∧
    ((videoFallbackDims 1920 1080).1 % 2 = 0 ∧ (videoFallbackDims 1920 1080).2 % 2 = 0 ∧
      (videoFallbackDims 1920 1080).1 ≤ 854 ∧ (videoFallbackDims 1920 1080).2 ≤ 480) :=
  claim_c7_video_dims_even 1920 1080 (by decide) (by decide)

/-- **C10.** When the moviepy backend is unavailable, `compress_video`
returns the input bytes and the input filename unchanged for every input and
every hypothetical backend: no `.mp4` renaming and no 50 MiB ceiling check
happens, so any payload (up to the 100 MiB global limit enforced earlier) is
handed to upload as-is. -/
theorem claim_c10_video_passthrough {β : Type}
    (backendRun : β → String → Except String (β × String)) (videoData : β)
    (filename : String) :
    compressVideo false backendRun videoData filename = .ok (videoData, filename) := rfl

/-! ## Classification and pipeline (storage_service.py, lines 314-364) -/

/-- `MediaTypeEnum` (models.py, lines 37-40). -/
inductive MediaTypeEnum where
  | image
  | video
deriving DecidableEq

/-- The fields of a `MediaUpload` (models.py, lines 199-220) as the pipeline
consumes them; the payload type is abstract. -/
structure MediaUpload (β : Type) where
  filename : String
  content_type : String
  size_bytes : Int
  data : β

/-- The classification performed by `process_and_upload_media` (lines
322-347): the lowercased `Path(filename).suffix` is looked up first in the
image extension set, then in the video set; anything else raises
`ValueError(f"Unsupported file type: {file_ext}")`. -/
def classifyMedia (filename : String) : Except String MediaTypeEnum :=
  if pyLower (pySuffix filename) ∈ image_formats then .ok .image
  else if pyLower (pySuffix filename) ∈ video_formats then .ok .video
  else .error ("Unsupported file type: " ++ pyLower (pySuffix filename))

/-- `process_and_upload_media` (lines 314-364).  The image branch wraps
`compress_image` in `try/except` and falls back to the original bytes and
filename; the video branch calls `compress_video` unguarded, so its error
propagates; the compressed payload is then uploaded (the upload oracle
stands for `upload_media_with_retry` and returns `(public_url, size_mb)`). -/
def processAndUploadMedia {β : Type}
    (compressImg : β → String → Except String (β × String))
    (compressVid : β → String → Except String (β × String))
    (upload : β → String → String → Except String (String × ℚ))
    (u : MediaUpload β) : Except String (String × ℚ × String) :=
  if pyLower (pySuffix u.filename) ∈ image_formats then
    let r : β × String :=
      match compressImg u.data u.filename with
      | .ok r => r
      | .error _ => (u.data, u.filename)
    match upload r.1 r.2 u.content_type with
    | .ok (url, szMb) => .ok (url, szMb, r.2)
    | .error e => .error e
  else if pyLower (pySuffix u.filename) ∈ video_formats then
    match compressVid u.data u.filename with
    | .error e => .error e
    | .ok (cd, nf) =>
      match upload cd nf u.content_type with
      | .ok (url, szMb) => .ok (url, szMb, nf)
      | .error e => .error e
  else .error ("Unsupported file type: " ++ pyLower (pySuffix u.filename))

/-- `validate_media_file` (lines 478-495): extension check against the union
of the two sets, then the 100 MiB size check.  (The Python failure message
embeds float-formatted megabyte counts; that formatting is abstracted, the
success/failure flag and message presence are modelled exactly.) -/
def validate_media_file (filename : String) (file_size : Nat) : Bool × String :=
  if ¬ (pyLower (pySuffix filename) ∈ image_formats
      ∨ pyLower (pySuffix filename) ∈ video_formats) then
    (false, "Unsupported file type: " ++ pyLower (pySuffix filename))
  else if file_size > max_file_size then
    (false, "File too large")
  else (true, "Valid")

/-- One report dictionary appended by `batch_process_media` (lines 503-534);
absent dictionary keys are `none`. -/
structure BatchReport where
  filename : String
  new_filename : Option String
  success : Bool
  public_url : Option String
  size_mb : Option ℚ
  error : Option String
deriving DecidableEq

/-- The loop body of `batch_process_media` for one item: validate, then
process-and-upload, with the item's `try/except` catching any raised error
into a failure entry (`processOne` stands for `process_and_upload_media`). -/
def batchItemReport {β : Type} (len : β → Nat)
    (processOne : MediaUpload β → Except String (String × ℚ × String))
    (u : MediaUpload β) : BatchReport :=
  match validate_media_file u.filename (len u.data) with
  | (false, msg) => ⟨u.filename, none, false, none, none, some msg⟩
  | (true, _) =>
    match processOne u with
    | .ok (url, szMb, nf) => ⟨u.filename, some nf, true, some url, some szMb, none⟩
    | .error e => ⟨u.filename, none, false, none, none, some e⟩

/-- `batch_process_media` (lines 497-539): one report entry appended per
input, in input order; each item's failure is caught by the per-item
`try/except`, so the batch function itself is total (it never raises). -/
def batchProcessMedia {β : Type} (len : β → Nat)
    (processOne : MediaUpload β → Except String (String × ℚ × String))
    (uploads : List (MediaUpload β)) : List BatchReport :=
  uploads.map (batchItemReport len processOne)

lemma image_formats_disjoint_video : ∀ s, s ∈ image_formats → s ∉ video_formats := by
  intro s hs
  fin_cases hs <;> decide

lemma video_formats_disjoint_image : ∀ s, s ∈ video_formats → s ∉ image_formats := by
  intro s hs
  fin_cases hs <;> decide

/-- **C5.** Classification by filename extension is deterministic and total
over recognized extensions: the image and video extension sets are disjoint,
a filename whose lowercased suffix is an image (resp. video) extension
classifies as Image (resp. Video), classifying the same filename twice gives
the same result, and an unrecognized extension raises the classification
error, never silently defaulting to either kind. -/
theorem claim_c5_classification_total (filename : String) :
    (∀ s, s ∈ image_formats → s ∉ video_formats)
    ∧ (pyLower (pySuffix filename) ∈ image_formats →
        classifyMedia filename = .ok .image)
    ∧ (pyLower (pySuffix filename) ∈ video_formats →
        classifyMedia filename = .ok .video)
    ∧ (pyLower (pySuffix filename) ∉ image_formats →
        pyLower (pySuffix filename) ∉ video_formats →
        classifyMedia filename =
          .error ("Unsupported file type: " ++ pyLower (pySuffix filename)))
    ∧ classifyMedia filename = classifyMedia filename := by
  refine ⟨image_formats_disjoint_video, ?_, ?_, ?_, rfl⟩
  · intro h
    unfold classifyMedia
    rw [if_pos h]
  · intro h
    unfold classifyMedia
    rw [if_neg (video_formats_disjoint_image _ h), if_pos h]
  · intro h1 h2
    unfold classifyMedia
    rw [if_neg h1, if_neg h2]

/-- Witness for C5 on concrete filenames: `.jpg` classifies as Image, `.MOV`
(case-insensitively) as Video, `.txt` as the classification error. -/
theorem claim_c5_classification_total_witness :
    classifyMedia ("a.jpg") = .ok .image
    ∧ classifyMedia ("clip.MOV") = .ok .video
    ∧ classifyMedia ("notes.txt") = .error ("Unsupported file type: .txt") :=
  ⟨(claim_c5_classification_total ("a.jpg")).2.1 (by decide),
    (claim_c5_classification_total ("clip.MOV")).2.2.1 (by decide),
    (claim_c5_classification_total ("notes.txt")).2.2.2.1 (by decide) (by decide)⟩

/-- **C3.** In `process_and_upload_media`, an image-compression failure is
recovered locally: the original bytes and original filename go to upload and
the call succeeds when the upload succeeds; a video-compression failure
propagates out as that item's terminal failure, with no original-bytes
fallback. -/
theorem claim_c3_transcode_failure_asymmetry {β : Type}
    (compressImg compressVid : β → String → Except String (β × String))
    (upload : β → String → String → Except String (String × ℚ))
    (u : MediaUpload β) :
    (∀ e url szMb, pyLower (pySuffix u.filename) ∈ image_formats →
      compressImg u.data u.filename = .error e →
      upload u.data u.filename u.content_type = .ok (url, szMb) →
      processAndUploadMedia compressImg compressVid upload u = .ok (url, szMb, u.filename))
    ∧ (∀ e, pyLower (pySuffix u.filename) ∈ video_formats →
      compressVid u.data u.filename = .error e →
      processAndUploadMedia compressImg compressVid upload u = .error e) := by
  constructor
  · intro e url szMb hmem hc hu
    unfold processAndUploadMedia
    rw [if_pos hmem, hc]
    dsimp only
    rw [hu]
  · intro e hmem hv
    unfold processAndUploadMedia
    rw [if_neg (video_formats_disjoint_image _ hmem), if_pos hmem, hv]

/-- Image-compression oracle for the C3 witness: always raises. -/
def c3CompressImg : Nat → String → Except String (Nat × String) :=
  fun _ _ => .error ("corrupt image")

/-- Video-compression oracle for the C3 witness: always raises. -/
def c3CompressVid : Nat → String → Except String (Nat × String) :=
  fun _ _ => .error ("boom")

/-- Upload oracle for the C3 witness: always succeeds. -/
def c3Upload : Nat → String → String → Except String (String × ℚ) :=
  fun _ _ _ => .ok ("http://u", 1)

/-- Witness for C3 at concrete items: a failing image compression still
uploads the original, a failing video compression fails the item. -/
theorem claim_c3_transcode_failure_asymmetry_witness :
    processAndUploadMedia c3CompressImg c3CompressVid c3Upload
      ⟨"a.jpg", "image/jpeg", 1, 0⟩ = .ok ("http://u", 1, "a.jpg")
    ∧ processAndUploadMedia c3CompressImg c3CompressVid c3Upload
      ⟨"b.mp4", "video/mp4", 1, 0⟩ = .error ("boom") :=
  ⟨(claim_c3_transcode_failure_asymmetry c3CompressImg c3CompressVid c3Upload
      ⟨"a.jpg", "image/jpeg", 1, 0⟩).1 ("corrupt image") ("http://u") 1 (by decide) rfl rfl,
    (claim_c3_transcode_failure_asymmetry c3CompressImg c3CompressVid c3Upload
      ⟨"b.mp4", "video/mp4", 1, 0⟩).2 ("boom") (by decide) rfl⟩

lemma batchItemReport_spec {β : Type} (len : β → Nat)
    (processOne : MediaUpload β → Except String (String × ℚ × String))
    (u : MediaUpload β) :
    (batchItemReport len processOne u).filename = u.filename
    ∧ ((batchItemReport len processOne u).success = true →
        ∃ url szMb nf, processOne u = .ok (url, szMb, nf)
          ∧ (batchItemReport len processOne u).public_url = some url
          ∧ (batchItemReport len processOne u).size_mb = some szMb
          ∧ (batchItemReport len processOne u).new_filename = some nf
          ∧ (batchItemReport len processOne u).error = none)
    ∧ ((batchItemReport len processOne u).success = false →
        ∃ msg, (batchItemReport len processOne u).error = some msg) := by
  unfold batchItemReport
  rcases hv : validate_media_file u.filename (len u.data) with ⟨b, msg⟩
  cases b
  · exact ⟨rfl, fun h => by simp at h, fun _ => ⟨msg, rfl⟩⟩
  · cases hp : processOne u with
    | ok t =>
      rcases t with ⟨url, szMb, nf⟩
      exact ⟨rfl, fun _ => ⟨url, szMb, nf, rfl, rfl, rfl, rfl, rfl⟩,
        fun h => by simp at h⟩
    | error e =>
      exact ⟨rfl, fun h => by simp at h, fun _ => ⟨e, rfl⟩⟩

/-- **C4.** `batch_process_media` returns exactly one report entry per input,
in input order; each entry carries the original filename, a success flag with
URL/size/final filename on success and an error description on failure; each
entry depends only on its own input item (so one item's terminal failure
never affects the processing of the others); and the embedded batch function
is total - every raised per-item error is absorbed into that item's entry,
nothing escapes the batch call. -/
theorem claim_c4_batch_isolation {β : Type} (len : β → Nat)
    (processOne : MediaUpload β → Except String (String × ℚ × String))
    (uploads : List (MediaUpload β)) :
    (batchProcessMedia len processOne uploads).length = uploads.length
    ∧ (∀ i, (batchProcessMedia len processOne uploads).get? i
        = (uploads.get? i).map (batchItemReport len processOne))
    ∧ (∀ i u, uploads.get? i = some u →
        ∃ r, (batchProcessMedia len processOne uploads).get? i = some r
          ∧ r.filename = u.filename
          ∧ (r.success = true →
              ∃ url szMb nf, processOne u = .ok (url, szMb, nf)
                ∧ r.public_url = some url ∧ r.size_mb = some szMb
                ∧ r.new_filename = some nf ∧ r.error = none)
          ∧ (r.success = false → ∃ msg, r.error = some msg)) := by
  refine ⟨List.length_map _ _, fun i => by
    simp [batchProcessMedia, List.get?_eq_getElem?, List.getElem?_map], ?_⟩
  intro i u hu
  refine ⟨batchItemReport len processOne u, ?_, ?_⟩
  · rw [List.get?_eq_getElem?] at hu ⊢
    simp [batchProcessMedia, List.getElem?_map, hu]
  · exact batchItemReport_spec len processOne u

/-- Items and oracles for the C4 witness: a good image, an unclassifiable
file, a good video. -/
def c4Uploads : List (MediaUpload Nat) :=
  [⟨"a.jpg", "image/jpeg", 3, 0⟩, ⟨"b.xyz", "text/plain", 3, 0⟩,
    ⟨"c.mp4", "video/mp4", 3, 0⟩]

/-- Per-item pipeline oracle for the C4 witness: always succeeds. -/
def c4Process : MediaUpload Nat → Except String (String × ℚ × String) :=
  fun u => .ok ("http://u", 1, u.filename)

/-- Witness for C4 on a 3-item batch with an unclassifiable middle item: the
report has 3 entries and the middle entry is present and carries its original
filename. -/
theorem claim_c4_batch_isolation_witness :
    (batchProcessMedia (fun _ => 3) c4Process c4Uploads).length = 3
    ∧ (∃ r, (batchProcessMedia (fun _ => 3) c4Process c4Uploads).get? 1 = some r
        ∧ r.filename = "b.xyz"
        ∧ (r.success = true →
            ∃ url szMb nf, c4Process ⟨"b.xyz", "text/plain", 3, 0⟩ = .ok (url, szMb, nf)
              ∧ r.public_url = some url ∧ r.size_mb = some szMb
              ∧ r.new_filename = some nf ∧ r.error = none)
        ∧ (r.success = false → ∃ msg, r.error = some msg)) :=
  ⟨((claim_c4_batch_isolation (fun _ => 3) c4Process c4Uploads).1).trans rfl,
    (claim_c4_batch_isolation (fun _ => 3) c4Process c4Uploads).2.2 1
      ⟨"b.xyz", "text/plain", 3, 0⟩ rfl⟩

/-! ## MediaUpload construction (models.py, lines 199-220)

Pydantic validation: field constraints (`min_length`/`max_length` on
`filename`, `min_length` on `content_type`, `ge=0` on `size_bytes`) plus the
two `@validator`s - `validate_filename` (lowercased name must end with one of
the allowed extensions; the value is stored stripped) and `validate_size`
(at most 100 MiB).  Construction succeeds iff every check passes (pydantic
aggregates all failures into one ValidationError; the model returns the first
failing check's message).  Nothing compares `size_bytes` to `len(data)`, and
the `data` field is not validated at all. -/

/-- `allowed_extensions` of `MediaUpload.validate_filename` (models.py,
line 208). -/
def allowed_extensions : List String :=
  [".jpg", ".jpeg", ".png", ".gif", ".mp4", ".mov", ".avi"]

/-- Constructing a `MediaUpload(filename=..., content_type=...,
size_bytes=..., data=...)`. -/
def mediaUploadNew {β : Type} (filename content_type : String)
    (size_bytes : Int) (data : β) : Except String (MediaUpload β) :=
  if 1 ≤ filename.length ∧ filename.length ≤ 255 then
    if allowed_extensions.any (fun ext => strEndsWith (pyLower filename) ext) then
      if 1 ≤ content_type.length then
        if 0 ≤ size_bytes then
          if size_bytes ≤ (max_file_size : Int) then
            .ok ⟨pyStrip filename, content_type, size_bytes, data⟩
          else .error ("File too large. Maximum size: 100MB")
        else .error ("size_bytes: ensure this value is greater than or equal to 0")
      else .error ("content_type: ensure this value has at least 1 characters")
    else .error ("File type not supported")
  else .error ("filename: length constraint violated")

/-- Concrete payload for the C8 counterexample: three bytes. -/
def c8Data : List Nat := [0, 0, 0]

/-- **C8 (counterexample).** The claim requires construction to succeed
*only if* the declared byte length matches the payload length.  Constructing
a `MediaUpload` with `size_bytes = 5` and a 3-byte payload succeeds: no check
relates `size_bytes` to `len(data)`. -/
theorem claim_c8_size_match_counterexample :
    (mediaUploadNew ("a.jpg") ("image/jpeg") 5 c8Data).isOk = true
    ∧ (5 : Int) ≠ (c8Data.length : Int) := by
  exact ⟨by rfl, by decide⟩

/-- **C8 (amended).** `MediaUpload` construction succeeds if and only if the
filename has 1-255 characters and its lowercased form ends with one of the
model's allowed extensions `.jpg/.jpeg/.png/.gif/.mp4/.mov/.avi` (note:
`.heic/.heif/.m4v`, though classifiable by the pipeline, are rejected here),
the content type is nonempty, and the declared byte length lies between 0 and
100 MiB.  The declared byte length is never compared to the payload length. -/
theorem claim_c8_validation_iff {β : Type} (filename content_type : String)
    (size_bytes : Int) (data : β) :
    (mediaUploadNew filename content_type size_bytes data).isOk = true ↔
      (1 ≤ filename.length ∧ filename.length ≤ 255
        ∧ allowed_extensions.any (fun ext => strEndsWith (pyLower filename) ext) = true
        ∧ 1 ≤ content_type.length
        ∧ 0 ≤ size_bytes ∧ size_bytes ≤ (max_file_size : Int)) := by
  unfold mediaUploadNew
  split_ifs with h1 h2 h3 h4 h5
  · exact ⟨fun _ => ⟨h1.1, h1.2, h2, h3, h4, h5⟩, fun _ => rfl⟩
  · exact ⟨fun h => absurd h Bool.false_ne_true, fun hr => absurd hr.2.2.2.2.2 h5⟩
  · exact ⟨fun h => absurd h Bool.false_ne_true, fun hr => absurd hr.2.2.2.2.1 h4⟩
  · exact ⟨fun h => absurd h Bool.false_ne_true, fun hr => absurd hr.2.2.2.1 h3⟩
  · exact ⟨fun h => absurd h Bool.false_ne_true, fun hr => absurd hr.2.2.1 h2⟩
  · exact ⟨fun h => absurd h Bool.false_ne_true, fun hr => absurd ⟨hr.1, hr.2.1⟩ h1⟩

/-- Witness for the amended C8: a well-formed construction succeeds, and one
with a `.heic` extension (recognized by the pipeline but not by the model)
fails. -/
theorem claim_c8_validation_iff_witness :
    (mediaUploadNew (β := List Nat) ("b.png") ("image/png") 7 [1, 2, 3]).isOk = true
    ∧ ¬ (mediaUploadNew (β := List Nat) ("b.heic") ("image/heic") 7 [1, 2, 3]).isOk = true :=
  ⟨(claim_c8_validation_iff ("b.png") ("image/png") 7 [1, 2, 3]).mpr
      ⟨by decide, by decide, by rfl, by decide, by decide, by decide⟩,
    fun h => by
      have := (claim_c8_validation_iff (β := List Nat) ("b.heic") ("image/heic") 7 [1, 2, 3]).mp h
      exact absurd this.2.2.1 (by decide)⟩
